import Mathlib

/-!
Verification of the rclone remote-control server front end: the command
dispatch handler (handlePost / handler), the CORS and authentication
middleware, the TLS / client-CA configuration, and the ini-file flag
overlay, shallowly embedded from the Go sources.
-/

namespace RC

/-- Values held in an rc.Params mapping (Go map from string to interface).
Query and form parameters enter as strings; a decoded JSON body contributes
data values; the dispatcher may inject the live request / response transport
handles under reserved keys. Compound JSON values (arrays, nested objects)
are omitted from the value universe: no verified property depends on them. -/
inductive RCValue where
  | null
  | bool (b : Bool)
  | num (n : Int)
  | str (s : String)
  | request
  | response
deriving DecidableEq, Repr

/-- A live transport handle (the injected request or response object). -/
def RCValue.isHandle : RCValue → Bool
  | .request => true
  | .response => true
  | _ => false

/-- rc.Params: a Go map from string keys to values, as an association list
with unique keys (set replaces an existing binding). -/
def Params := List (String × RCValue)
deriving DecidableEq, Repr

/-- Map read: the value bound to a key, if any. -/
def Params.lookup : Params → String → Option RCValue
  | [], _ => none
  | (k, v) :: rest, key => if key = k then some v else Params.lookup rest key

/-- Map write: bind key to val, replacing any existing binding. -/
def Params.set : Params → String → RCValue → Params
  | [], key, val => [(key, val)]
  | (k, v) :: rest, key, val =>
      if k = key then (key, val) :: rest else (k, v) :: Params.set rest key val

/-- Modelled from the spec: rc.Params.Copy returns a fresh mapping holding
the same key-value pairs (a shallow copy); in this functional embedding
that is the mapping itself. -/
def Params.copy (p : Params) : Params := p

/-- No value of the mapping is a live transport handle. -/
def Params.noHandles (p : Params) : Prop :=
  ∀ k v, Params.lookup p k = some v → v.isHandle = false

/-- Go url.Values: a map from keys to ordered lists of string values,
here an association list with unique keys. -/
def Values := List (String × List String)
deriving DecidableEq, Repr

/-- url.Values.Add: append one value to the list held for a key. -/
def Values.add : Values → String → String → Values
  | [], key, val => [(key, [val])]
  | (k, vs) :: rest, key, val =>
      if k = key then (k, vs ++ [val]) :: rest else (k, vs) :: Values.add rest key val

/-- Group an ordered list of key-value pairs into url.Values, as Go's query
and form parsers do (values of one key kept in order of appearance). -/
def valuesOfPairs (pairs : List (String × String)) : Values :=
  pairs.foldl (fun a kv => a.add kv.1 kv.2) []

/-- The body of handlePost's loop reading url.Values into rc.Params: a key
with a non-empty value list is bound to its last value. -/
def readValuesStep (p : Params) (kv : String × List String) : Params :=
  match kv.2.getLast? with
  | some v => p.set kv.1 (RCValue.str v)
  | none => p

/-- The loop of handlePost that reads url.Values into rc.Params: for each
key with a non-empty value list, bind the key to the last value. -/
def paramsOfValues (vs : Values) : Params :=
  vs.foldl readValuesStep []

/-- An incoming HTTP request, with the per-request context facts the
middleware reads, and the parse results of its body under the two content
types the dispatcher recognises (the body is consulted under at most one of
them).  `formBody` is the result of Go's ParseForm on the POST body
(`none` = parse error), `jsonBody` the result of decoding the body as a
JSON object (`none` = decode error); both model standard-library parsers. -/
structure Request where
  method : String
  urlPath : String
  queryPairs : List (String × String)
  contentType : String
  authHeader : String
  formBody : Option (List (String × String))
  jsonBody : Option (List (String × RCValue))
  isUnixSocket : Bool
  publicURL : String
  ctxAuthValue : Bool
  ctxUserValue : Bool
deriving DecidableEq, Repr

/-- What a response body write carries: rc.WriteJSON of an output mapping,
rc.WriteJSON of an error envelope, or a plain-text write (http.Error). -/
inductive BodyOut where
  | jsonParams (p : Params)
  | jsonEnvelope (path : String) (input : Params) (errMsg : String) (status : Nat)
  | text (s : String)
deriving DecidableEq, Repr

/-- Whether a body write is a plain-text write. -/
def BodyOut.isText : BodyOut → Bool
  | .text _ => true
  | _ => false

/-- One action of a handler on the http.ResponseWriter, in order. -/
inductive WEvent where
  | addHeader (k v : String)
  | writeHeader (status : Nat)
  | write (b : BodyOut)
deriving DecidableEq, Repr

/-- A handler maps a request to the ordered trace of its writer actions. -/
def Handler := Request → List WEvent

/-- An event that commits the response head: once the status line is out
(explicitly, or implicitly by the first body write) later header additions
have no effect. -/
def WEvent.isCommit : WEvent → Bool
  | .writeHeader _ => true
  | .write _ => true
  | _ => false

/-- The response status of a trace: the first explicit WriteHeader, or 200
when the first commit is a body write or nothing was written (Go's
implicit status). -/
def respStatus (tr : List WEvent) : Nat :=
  match tr.find? WEvent.isCommit with
  | some (WEvent.writeHeader s) => s
  | _ => 200

/-- The effective response headers of a trace: the additions made before
the response head was committed. -/
def respHeaders (tr : List WEvent) : List (String × String) :=
  (tr.takeWhile (fun e => !e.isCommit)).filterMap
    (fun e => match e with | WEvent.addHeader k v => some (k, v) | _ => none)

/-- The values carried by one effective response header. -/
def headerValues (tr : List WEvent) (key : String) : List String :=
  (respHeaders tr).filterMap (fun kv => if kv.1 = key then some kv.2 else none)

/-- The body writes of a trace, in order. -/
def respBodies (tr : List WEvent) : List BodyOut :=
  tr.filterMap (fun e => match e with | WEvent.write b => some b | _ => none)

/-- Go's %q verb on a string, for the strings at issue here (command paths,
method names: no characters that %q would escape). -/
def goQuote (s : String) : String := "\"" ++ s ++ "\""

/-- strings.TrimLeft(s, "/"): drop every leading slash. -/
def trimLeftSlash (s : String) : String :=
  String.mk (s.data.dropWhile (fun c => c = '/'))

/-- An error returned by a command or the job engine.  Modelled from the
spec: an error may declare the HTTP status the response should use;
otherwise the status passed to writeError stands (default 500 at the
dispatch boundary). -/
structure RCError where
  msg : String
  declaredStatus : Option Nat
deriving DecidableEq, Repr

/-- Modelled from the spec: rc.Error assembles the error envelope with
fields path, input, error and status, the status being the error's declared
one when present, else the status passed in.  (rc.Error's code is not among
the repository files; the envelope shape is the spec's.) -/
def rcError (path : String) (inp : Params) (err : RCError) (status : Nat) :
    BodyOut × Nat :=
  let st := err.declaredStatus.getD status
  (BodyOut.jsonEnvelope path inp err.msg st, st)

/-- writeError: log, build the envelope via rc.Error, write the status head
and then the envelope as JSON.  A nil input mapping is modelled as the
empty mapping. -/
def writeError (path : String) (inp : Params) (err : RCError) (status : Nat) :
    List WEvent :=
  let (body, st) := rcError path inp err status
  [WEvent.writeHeader st, WEvent.write body]

/-- A registered command: rc.Call's flags as the dispatcher consults them. -/
structure Call where
  authRequired : Bool
  needsRequest : Bool
  needsResponse : Bool
deriving DecidableEq, Repr

/-- The command registry, rc.Calls.Get: an exact-match path lookup
(external collaborator, consumed as a function). -/
def Registry := String → Option Call

/-- Modelled from the spec: the external job engine contract.  Submitting a
call with its input mapping returns an optional job handle id (the
asynchronous path), an optional output mapping and an optional error. -/
structure JobEngine where
  newJob : Call → Params → Option Nat × Option Params × Option RCError

/-- libhttp.IsAuthenticated as the dispatcher calls it (the http2 version,
which tests the auth context key twice, verbatim from the source). -/
def IsAuthenticated (r : Request) : Bool :=
  if r.ctxAuthValue then true
  else if r.ctxAuthValue then true
  else false

/-- The outcome of assembling a POST's input mapping (handlePost's first
half, source lines 204-234): a form parse error, a JSON decode error
(carrying the mapping built so far, which handlePost echoes in the 400
envelope), or the finished mapping. -/
inductive PostInput where
  | formErr
  | jsonErr (inp : Params)
  | ok (inp : Params)
deriving DecidableEq, Repr

/-- The input-assembly half of RCServer.handlePost: start from the URL
query values; under Content-Type application/x-www-form-urlencoded run
ParseForm and read r.Form instead (Go's ParseForm merges the parsed body
with the URL query, body values first); under application/json decode the
body's keys over the mapping built so far. -/
def buildPostInput (r : Request) : PostInput :=
  match
    (if r.contentType = "application/x-www-form-urlencoded" then
      r.formBody.map (fun post => valuesOfPairs (post ++ r.queryPairs))
    else some (valuesOfPairs r.queryPairs)) with
  | none => PostInput.formErr
  | some values =>
    let inp := paramsOfValues values
    if r.contentType = "application/json" then
      match r.jsonBody with
      | none => PostInput.jsonErr inp
      | some obj => PostInput.ok (obj.foldl (fun p kv => p.set kv.1 kv.2) inp)
    else PostInput.ok inp

/-- Lines 250-257 of handlePost: inject the live transport handles under
the reserved keys when the registration asks for them. -/
def injectTransport (call : Call) (p : Params) : Params :=
  let p1 := if call.needsRequest then p.set "_request" RCValue.request else p
  if call.needsResponse then p1.set "_response" RCValue.response else p1

/-- RCServer.handlePost: assemble the input mapping, look the command up,
enforce authRequired, snapshot the mapping, inject transport handles,
submit to the job engine, correlate the job id header, and write the
success or error body. -/
def handlePost (reg : Registry) (eng : JobEngine) (r : Request) (path : String) :
    List WEvent :=
  match buildPostInput r with
  | PostInput.formErr =>
      writeError path [] { msg := "failed to parse form/URL parameters", declaredStatus := none } 400
  | PostInput.jsonErr inp =>
      writeError path inp { msg := "failed to read input JSON", declaredStatus := none } 400
  | PostInput.ok inp =>
    match reg path with
    | none =>
        writeError path inp
          { msg := "couldn't find method " ++ goQuote path, declaredStatus := none } 404
    | some call =>
      if call.authRequired && !(IsAuthenticated r) then
        writeError path inp
          { msg := "authentication must be set up on the rc server to use " ++ goQuote path ++
              " or the --rc-no-auth flag must be in use", declaredStatus := none } 403
      else
        let inOrig := Params.copy inp
        let inj := injectTransport call inp
        match eng.newJob call inj with
        | (job, out, err) =>
          let jobEv :=
            match job with
            | some id => [WEvent.addHeader "x-rclone-jobid" (toString id)]
            | none => []
          match err with
          | some e => jobEv ++ writeError path inOrig e 500
          | none => jobEv ++ [WEvent.write (BodyOut.jsonParams (out.getD []))]

/-- RCServer.handler: trim the path's leading slashes and route by method.
The GET/HEAD static and listing dispatch is an external collaborator here,
passed in as `getH`. -/
def handler (reg : Registry) (eng : JobEngine) (getH : Request → String → List WEvent)
    (r : Request) : List WEvent :=
  let path := trimLeftSlash r.urlPath
  if r.method = "POST" then handlePost reg eng r path
  else if r.method = "OPTIONS" then [WEvent.writeHeader 200]
  else if r.method = "GET" ∨ r.method = "HEAD" then getH r path
  else
    writeError path []
      { msg := "method " ++ goQuote r.method ++ " not allowed", declaredStatus := none } 405

/-- The header keys the CORS middleware manages. -/
def corsHeaderKeys : List String :=
  ["Access-Control-Allow-Origin", "Access-Control-Request-Method",
   "Access-Control-Allow-Headers"]

/-- libhttp.MiddlewareCORS (the http2 version the rc server installs):
skip every CORS header for unix-socket requests; otherwise set the allow
origin to the configured value when non-empty, else to the request's
public URL, and always advertise the allowed methods and headers. -/
def MiddlewareCORS (allowOrigin : String) (next : Handler) : Handler := fun r =>
  if r.isUnixSocket then next r
  else
    (if allowOrigin ≠ "" then
      [WEvent.addHeader "Access-Control-Allow-Origin" allowOrigin]
    else
      [WEvent.addHeader "Access-Control-Allow-Origin" r.publicURL]) ++
    [WEvent.addHeader "Access-Control-Request-Method" "POST, OPTIONS, GET, HEAD",
     WEvent.addHeader "Access-Control-Allow-Headers" "authorization, Content-Type"] ++
    next r

/-- The value of one base64 alphabet character (standard encoding). -/
def b64val (c : Char) : Option Nat :=
  if 'A' ≤ c ∧ c ≤ 'Z' then some (c.toNat - 65)
  else if 'a' ≤ c ∧ c ≤ 'z' then some (c.toNat - 97 + 26)
  else if '0' ≤ c ∧ c ≤ '9' then some (c.toNat - 48 + 52)
  else if c = '+' then some 62
  else if c = '/' then some 63
  else none

/-- Decode base64 input four characters at a time, with standard padding
in the last group only; models base64.StdEncoding.DecodeString on its
accepting inputs (an input of another shape is an error). -/
def b64groups : List Char → Option (List Nat)
  | [] => some []
  | c1 :: c2 :: c3 :: c4 :: rest =>
    match b64val c1, b64val c2 with
    | some v1, some v2 =>
      if c3 = '=' then
        if c4 = '=' ∧ rest = [] then some [v1 * 4 + v2 / 16] else none
      else
        match b64val c3 with
        | some v3 =>
          if c4 = '=' then
            if rest = [] then some [v1 * 4 + v2 / 16, v2 % 16 * 16 + v3 / 4]
            else none
          else
            match b64val c4 with
            | some v4 =>
              (b64groups rest).map
                (fun bs => (v1 * 4 + v2 / 16) :: (v2 % 16 * 16 + v3 / 4) ::
                  (v3 % 4 * 64 + v4) :: bs)
            | none => none
        | none => none
    | _, _ => none
  | _ => none

/-- base64.StdEncoding.DecodeString followed by Go's string conversion:
the decoded bytes as a string (bytes as character codes). -/
def b64decodeString (s : String) : Option String :=
  (b64groups s.data).map (fun bs => String.mk (bs.map Char.ofNat))

/-- Split a character list at the first occurrence of a separator:
the part before it and, when the separator occurs, the part after it. -/
def splitAtFirst (sep : Char) : List Char → List Char × Option (List Char)
  | [] => ([], none)
  | c :: cs =>
    if c = sep then ([], some cs)
    else
      let r := splitAtFirst sep cs
      (c :: r.1, r.2)

/-- strings.SplitN(s, sep, 2) for a one-character separator: one or two
pieces, the second holding everything past the first separator. -/
def goSplitN2 (s : String) (sep : Char) : List String :=
  match splitAtFirst sep s.data with
  | (a, none) => [String.mk a]
  | (a, some b) => [String.mk a, String.mk b]

/-- parseAuthorization: read the Authorization header into user, pass and
an ok flag.  The header must split into "Basic" and a token at the first
space, the token must base64-decode, and the user is everything before the
first colon of the decoded credentials; ok is set only when a colon is
present. -/
def parseAuthorization (r : Request) : String × String × Bool :=
  if r.authHeader ≠ "" then
    match goSplitN2 r.authHeader ' ' with
    | [s0, s1] =>
      if s0 = "Basic" then
        match b64decodeString s1 with
        | some b =>
          match goSplitN2 b ':' with
          | [p0] => (p0, "", false)
          | [p0, p1] => (p0, p1, true)
          | _ => ("", "", false)
        | none => ("", "", false)
      else ("", "", false)
    | _ => ("", "", false)
  else ("", "", false)

/-- Modelled from the go-http-auth library: BasicAuth.RequireAuth writes
the plain-text content type, the WWW-Authenticate challenge carrying the
realm, a 401 status and the fixed unauthorized body. -/
def requireAuth (realm : String) : List WEvent :=
  [WEvent.addHeader "Content-Type" "text/plain",
   WEvent.addHeader "WWW-Authenticate" ("Basic realm=" ++ goQuote realm),
   WEvent.writeHeader 401,
   WEvent.write (BodyOut.text "401 Unauthorized\n")]

/-- A LoggedBasicAuth authenticator: the realm, the secret provider
(static-credential or htpasswd), and the library's password-to-stored-hash
comparison (go-http-auth CheckSecret), taken as a function of the
environment. -/
structure LoggedBasicAuth where
  realm : String
  secrets : String → String → String
  checkSecret : String → String → Bool

/-- Modelled from the go-http-auth library: BasicAuth.CheckAuth parses the
Basic credentials, asks the secret provider, and accepts when the stored
secret is non-empty and the password matches it; the repository's
LoggedBasicAuth.CheckAuth only adds logging.  The header parse reuses the
same Basic-credentials shape as parseAuthorization. -/
def LoggedBasicAuth.checkAuth (a : LoggedBasicAuth) (r : Request) : Option String :=
  match parseAuthorization r with
  | (user, pass, true) =>
    let secret := a.secrets user a.realm
    if secret = "" then none
    else if a.checkSecret pass secret then some user else none
  | _ => none

/-- basicAuth: the middleware wrapper over a LoggedBasicAuth used by the
static-credential and htpasswd strategies: a failed check answers with the
401 challenge, a successful one stores the username in context and passes
the request on. -/
def basicAuth (a : LoggedBasicAuth) (next : Handler) : Handler := fun r =>
  match a.checkAuth r with
  | none => requireAuth a.realm
  | some _ => next { r with ctxUserValue := true }

/-- MiddlewareAuthBasic: hash the configured password with MD5Crypt (the
library hash, a function of the environment) and authenticate against a
single-user secret provider. -/
def MiddlewareAuthBasic (crypt : String → String → String)
    (checkSecret : String → String → Bool)
    (user pass realm salt : String) (next : Handler) : Handler :=
  let hashed := crypt pass salt
  basicAuth
    { realm := realm,
      secrets := fun u _ => if user = u then hashed else "",
      checkSecret := checkSecret }
    next

/-- The caller-supplied custom verifier: (user, pass) to an error or a
possibly-nil value. -/
def CustomAuthFn := String → String → Except String (Option Unit)

/-- MiddlewareAuthCustom: parse the Basic credentials itself; a malformed
or absent header passes the request through untouched; a verifier error
answers with the 401 challenge; a verifier success stores a non-nil value
in the auth context and passes the request on. -/
def MiddlewareAuthCustom (fn : CustomAuthFn) (realm : String) (next : Handler) :
    Handler := fun r =>
  match parseAuthorization r with
  | (user, pass, true) =>
    match fn user pass with
    | Except.error _ => requireAuth realm
    | Except.ok value =>
      match value with
      | some _ => next { r with ctxAuthValue := true }
      | none => next r
  | (_, _, false) => next r

/-- The TLS-relevant part of the server options (HTTPConfig / Options):
cert and key as file paths or literal bytes (bytes modelled as strings,
empty = absent), the client-CA bundle path, and the minimum TLS version
string. -/
structure HTTPConfig where
  tlsCert : String
  tlsKey : String
  tlsCertBody : String
  tlsKeyBody : String
  clientCA : String
  minTLSVersion : String
deriving DecidableEq, Repr

/-- The environment of standard-library and OS effects initTLS relies on:
loading a certificate/key pair from files or bytes, reading a file, and
whether a PEM bundle yields at least one certificate for the trust pool
(x509.CertPool.AppendCertsFromPEM's result). -/
structure TLSEnv where
  loadKeyPair : String → String → Except String Unit
  keyPairFromBytes : String → String → Except String Unit
  readFile : String → Except String String
  pemHasCert : String → Bool

/-- The observable outcome of building the shared tls.Config: the minimum
version, whether a client-CA pool was installed, and whether client
certificates are required and verified. -/
structure TLSConf where
  minVersion : Nat
  clientCAs : Bool
  clientAuth : Bool
deriving DecidableEq, Repr

/-- The minimum-version switch: the crypto/tls version constants, or none
for an unrecognised string. -/
def minTLSVersionOf : String → Option Nat
  | "tls1.0" => some 769
  | "tls1.1" => some 770
  | "tls1.2" => some 771
  | "tls1.3" => some 772
  | _ => none

/-- UseTLS: TLS key material is configured (a key path or key bytes). -/
def UseTLS (cfg : HTTPConfig) : Bool := cfg.tlsKey != "" || cfg.tlsKeyBody != ""

/-- server.initTLS (the lib/http package): return at once with no TLS
config when no key material is configured; then require cert/key pairing,
load the pair, map the minimum version, and — only then — handle a
configured client CA: read it, require the bundle to parse into the pool,
and require and verify client certificates. -/
def initTLS (env : TLSEnv) (cfg : HTTPConfig) : Except String (Option TLSConf) :=
  if cfg.tlsKey = "" ∧ cfg.tlsKeyBody = "" then Except.ok none
  else if ((cfg.tlsCertBody != "") != (cfg.tlsKeyBody != "")) then
    Except.error "need both TLSCertBody and TLSKeyBody to use TLS"
  else if ((cfg.tlsCert != "") != (cfg.tlsKey != "")) then
    Except.error "need both --cert and --key to use TLS"
  else
    match
      (if cfg.tlsCertBody ≠ "" then env.keyPairFromBytes cfg.tlsCertBody cfg.tlsKeyBody
       else env.loadKeyPair cfg.tlsCert cfg.tlsKey) with
    | Except.error e => Except.error e
    | Except.ok _ =>
      match minTLSVersionOf cfg.minTLSVersion with
      | none => Except.error ("invalid value for --min-tls-version: " ++ cfg.minTLSVersion)
      | some mv =>
        if cfg.clientCA ≠ "" then
          match env.readFile cfg.clientCA with
          | Except.error e => Except.error e
          | Except.ok pem =>
            if env.pemHasCert pem then
              Except.ok (some { minVersion := mv, clientCAs := true, clientAuth := true })
            else Except.error "unable to parse client certificate authority"
        else Except.ok (some { minVersion := mv, clientCAs := false, clientAuth := false })

/-- The TLS and client-CA validation portion of the Options-style NewServer
(the http2 package, source lines 803-867); log.Fatalf is modelled as a
fatal error result.  Unlike initTLS, a client CA configured without key
material is a fatal configuration error here. -/
def newServerTLS (env : TLSEnv) (opt : HTTPConfig) : Except String (Option TLSConf) :=
  if ((opt.tlsCertBody != "") != (opt.tlsKeyBody != "")) then
    Except.error "need both TLSCertBody and TLSKeyBody to use TLS"
  else if ((opt.tlsCert != "") != (opt.tlsKey != "")) then
    Except.error "need both --cert and --key to use TLS"
  else
    match
      (if UseTLS opt then
        match
          (if opt.tlsCertBody ≠ "" then env.keyPairFromBytes opt.tlsCertBody opt.tlsKeyBody
           else env.loadKeyPair opt.tlsCert opt.tlsKey) with
        | Except.error e => Except.error e
        | Except.ok _ =>
          match minTLSVersionOf opt.minTLSVersion with
          | none => Except.error ("Invalid value for --min-tls-version: " ++ opt.minTLSVersion)
          | some mv =>
            Except.ok (some { minVersion := mv, clientCAs := false, clientAuth := false })
      else (Except.ok none : Except String (Option TLSConf))) with
    | Except.error e => Except.error e
    | Except.ok tls0 =>
      if opt.clientCA ≠ "" then
        if !(UseTLS opt) then
          Except.error "can't use --client-ca without --cert and --key"
        else
          match env.readFile opt.clientCA with
          | Except.error e => Except.error e
          | Except.ok pem =>
            if env.pemHasCert pem then
              Except.ok (tls0.map (fun c => { c with clientCAs := true, clientAuth := true }))
            else Except.error "can't parse client certificate authority"
      else Except.ok tls0

/-- A primitive option value of the flag-tagged options structure, by the
declared kinds the overlay's switch handles (string, int, time.Duration as
int64 nanoseconds) plus the unhandled bool kind, which the switch leaves
untouched. -/
inductive FieldVal where
  | str (s : String)
  | int (n : Int)
  | dur (n : Int)
  | boolv (b : Bool)
deriving DecidableEq, Repr

/-- What pflag.Lookup reports about a registered flag: whether the caller
explicitly set it on the command line. -/
structure FlagInfo where
  changed : Bool
deriving DecidableEq, Repr

/-- One field of the flag-tagged options structure: a leaf with an optional
flag tag, its reflective settability, and its current value; or a nested
group carrying the tag that is put in front of its members' flags. -/
inductive OptField where
  | leaf (flagTag : Option String) (canSet : Bool) (val : FieldVal)
  | group (groupTag : String) (fields : List OptField)

/-- Association-list lookup for the loaded file's section map. -/
def lookupStr : List (String × String) → String → Option String
  | [], _ => none
  | (k, v) :: rest, key => if key = k then some v else lookupStr rest key

/-- Go's strconv.Atoi: an optional sign followed by one or more digits. -/
def digitsToNat : List Char → Option Nat
  | [] => none
  | cs =>
    if cs.all Char.isDigit then
      some (cs.foldl (fun a c => a * 10 + (c.toNat - 48)) 0)
    else none

/-- strconv.Atoi. -/
def goAtoi (s : String) : Option Int :=
  match s.data with
  | '+' :: cs => (digitsToNat cs).map Int.ofNat
  | '-' :: cs => (digitsToNat cs).map (fun n => -(Int.ofNat n))
  | cs => (digitsToNat cs).map Int.ofNat

/-- The conversion switch of Config.init: assign a string verbatim, an int
through Atoi, a duration through time.ParseDuration (taken as a function
of the environment); a failed conversion, or a kind the switch does not
list (bool), leaves the field unchanged. -/
def convertAssign (parseDur : String → Option Int) : FieldVal → String → FieldVal
  | FieldVal.str _, value => FieldVal.str value
  | FieldVal.int old, value =>
    match goAtoi value with
    | some n => FieldVal.int n
    | none => FieldVal.int old
  | FieldVal.dur old, value =>
    match parseDur value with
    | some d => FieldVal.dur d
    | none => FieldVal.dur old
  | FieldVal.boolv b, _ => FieldVal.boolv b

mutual

/-- The per-field walk of Config.init: a group recurses with its own tag as
the new flag-name front piece; a leaf without a flag tag is skipped; for a
tagged leaf, the file must hold a value under the composed flag name, the
flag must exist and must not have been explicitly set, the field must be
settable, and only then is the file's value converted and assigned. -/
def overlayField (fileVals : List (String × String)) (flags : String → Option FlagInfo)
    (parseDur : String → Option Int) (pfx : String) : OptField → OptField
  | OptField.group g fs =>
      OptField.group g (overlayFields fileVals flags parseDur g fs)
  | OptField.leaf none canSet v => OptField.leaf none canSet v
  | OptField.leaf (some tag0) canSet v =>
    let tag := if pfx ≠ "" then pfx ++ tag0 else tag0
    match lookupStr fileVals tag with
    | none => OptField.leaf (some tag0) canSet v
    | some value =>
      match flags tag with
      | none => OptField.leaf (some tag0) canSet v
      | some fl =>
        if fl.changed then OptField.leaf (some tag0) canSet v
        else if !canSet then OptField.leaf (some tag0) canSet v
        else OptField.leaf (some tag0) canSet (convertAssign parseDur v value)

/-- Config.init's field loop over a structure's fields, in order. -/
def overlayFields (fileVals : List (String × String)) (flags : String → Option FlagInfo)
    (parseDur : String → Option Int) (pfx : String) : List OptField → List OptField
  | [] => []
  | f :: fs =>
      overlayField fileVals flags parseDur pfx f ::
        overlayFields fileVals flags parseDur pfx fs

end

/-- Config.init's entry: read the DEFAULT section of the loaded file and,
when it is non-empty, overlay the options structure starting with an empty
flag-name front piece. -/
def configInit (fileVals : List (String × String)) (flags : String → Option FlagInfo)
    (parseDur : String → Option Int) (root : OptField) : OptField :=
  if fileVals = [] then root
  else overlayField fileVals flags parseDur "" root

/-- Map read on url.Values. -/
def Values.lookup : Values → String → Option (List String)
  | [], _ => none
  | (k, vs) :: rest, key => if key = k then some vs else Values.lookup rest key

/-- The step of valuesOfPairs' fold. -/
def addPairStep (a : Values) (kv : String × String) : Values := a.add kv.1 kv.2

/-- A form-encoded POST carrying body a=b with query c=d. -/
def reqFormExample : Request :=
  { method := "POST", urlPath := "/x", queryPairs := [("c", "d")],
    contentType := "application/x-www-form-urlencoded", authHeader := "",
    formBody := some [("a", "b")], jsonBody := none,
    isUnixSocket := false, publicURL := "", ctxAuthValue := false,
    ctxUserValue := false }

/-- A JSON POST carrying body a=b with query c=d. -/
def reqJsonExample : Request :=
  { method := "POST", urlPath := "/x", queryPairs := [("c", "d")],
    contentType := "application/json", authHeader := "",
    formBody := none, jsonBody := some [("a", RCValue.str "b")],
    isUnixSocket := false, publicURL := "", ctxAuthValue := false,
    ctxUserValue := false }

/-- A downstream handler serving a 200 text page. -/
def okPageHandler : Handler := fun _ =>
  [WEvent.writeHeader 200, WEvent.write (BodyOut.text "page")]

/-- A custom verifier that rejects every credential pair. -/
def rejectAllFn : CustomAuthFn := fun _ _ => Except.error "invalid credentials"

/-- A request carrying no Authorization header. -/
def reqNoAuthHeader : Request :=
  { method := "GET", urlPath := "/", queryPairs := [], contentType := "",
    authHeader := "", formBody := none, jsonBody := none, isUnixSocket := false,
    publicURL := "", ctxAuthValue := false, ctxUserValue := false }

/-- A single-user authenticator that knows no stored secret. -/
def testBasicAuth : LoggedBasicAuth :=
  { realm := "test", secrets := fun _ _ => "",
    checkSecret := fun p s => p = s }

/-- A request carrying Basic credentials alice:pw. -/
def reqBadCreds : Request :=
  { reqNoAuthHeader with authHeader := "Basic YWxpY2U6cHc=" }

/-- A DELETE request to path /x. -/
def reqDelete : Request :=
  { method := "DELETE", urlPath := "/x", queryPairs := [], contentType := "",
    authHeader := "", formBody := none, jsonBody := none, isUnixSocket := false,
    publicURL := "", ctxAuthValue := false, ctxUserValue := false }

/-- A GET-side dispatcher answering plain-text 404 (its content is
irrelevant to the routed methods). -/
def getNotFound : Request → String → List WEvent := fun _ _ =>
  [WEvent.writeHeader 404, WEvent.write (BodyOut.text "Not Found\n")]

/-- The empty command registry. -/
def regEmpty : Registry := fun _ => none

/-- A job engine answering every submission with nothing. -/
def engIdle : JobEngine := { newJob := fun _ _ => (none, none, none) }

/-- An OPTIONS request to path /x. -/
def reqOptionsX : Request := { reqDelete with method := "OPTIONS" }

/-- A request arriving over a unix socket. -/
def reqUnix : Request :=
  { method := "GET", urlPath := "/", queryPairs := [], contentType := "",
    authHeader := "", formBody := none, jsonBody := none,
    isUnixSocket := true, publicURL := "", ctxAuthValue := false,
    ctxUserValue := false }

/-- The same request arriving over TCP with its computed public URL. -/
def reqTCP : Request :=
  { reqUnix with isUnixSocket := false, publicURL := "http://127.0.0.1:8080/" }

/-- An effect environment in which no file exists and no PEM parses. -/
def envNoFiles : TLSEnv :=
  { loadKeyPair := fun _ _ => Except.error "open: no such file",
    keyPairFromBytes := fun _ _ => Except.error "no key material",
    readFile := fun _ => Except.error "open: no such file",
    pemHasCert := fun _ => false }

/-- A configuration with a client-CA bundle and no TLS key material. -/
def cfgClientCAOnly : HTTPConfig :=
  { tlsCert := "", tlsKey := "", tlsCertBody := "", tlsKeyBody := "",
    clientCA := "ca.pem", minTLSVersion := "tls1.0" }

/-- An effect environment holding a loadable key pair and a CA bundle at
ca.pem that parses into the trust pool. -/
def envWithKeys : TLSEnv :=
  { loadKeyPair := fun _ _ => Except.ok (),
    keyPairFromBytes := fun _ _ => Except.ok (),
    readFile := fun p => if p = "ca.pem" then Except.ok "CERTDATA" else Except.error "open",
    pemHasCert := fun s => s == "CERTDATA" }

/-- A full TLS configuration: cert/key paths, client CA, TLS 1.2 minimum. -/
def cfgFullTLS : HTTPConfig :=
  { tlsCert := "cert.pem", tlsKey := "key.pem", tlsCertBody := "", tlsKeyBody := "",
    clientCA := "ca.pem", minTLSVersion := "tls1.2" }

/-- The loaded ini file holding network=unix under the flag rc-net. -/
def rcNetFile : List (String × String) := [("rc-net", "unix")]

/-- A flag table where only rc-net is registered, with the given
explicitly-set state. -/
def rcNetFlags (changed : Bool) : String → Option FlagInfo := fun t =>
  if t = "rc-net" then some { changed := changed } else none

/-- A request whose Basic credentials decode to user with no colon. -/
def reqNoColon : Request := { reqNoAuthHeader with authHeader := "Basic dXNlcg==" }

/-- A registry holding one auth-requiring command at secret/op. -/
def regSecret : Registry := fun p =>
  if p = "secret/op" then
    some { authRequired := true, needsRequest := false, needsResponse := false }
  else none

/-- A command wanting both transport handles. -/
def callNeedsBoth : Call :=
  { authRequired := false, needsRequest := true, needsResponse := true }

/-- A registry holding job/fail, a command wanting both handles. -/
def regNeeds : Registry := fun p => if p = "job/fail" then some callNeedsBoth else none

/-- A job engine that creates job 7 and fails the call. -/
def engFail : JobEngine :=
  { newJob := fun _ _ => (some 7, none, some { msg := "boom", declaredStatus := none }) }

/-- A registry answering every path with a plain command. -/
def regSimple : Registry := fun _ =>
  some { authRequired := false, needsRequest := false, needsResponse := false }

/-- A job engine that creates job 12 and succeeds with an empty output. -/
def engAsync : JobEngine := { newJob := fun _ _ => (some 12, some [], none) }

/-! ### Helper lemmas -/

theorem Params.lookup_set (p : Params) (k : String) (v : RCValue) (key : String) :
    Params.lookup (Params.set p k v) key = if key = k then some v else Params.lookup p key := by
  induction p with
  | nil => simp [Params.set, Params.lookup]
  | cons hd tl ih =>
    obtain ⟨k0, v0⟩ := hd
    by_cases hk : k0 = k
    · subst hk
      simp only [Params.set, if_pos rfl]
      by_cases hkey : key = k0
      · subst hkey; simp [Params.lookup]
      · simp [Params.lookup, hkey]
    · simp only [Params.set, if_neg hk]
      by_cases hkey : key = k0
      · subst hkey
        have : ¬ key = k := fun h => hk (h ▸ rfl)
        simp [Params.lookup, this]
      · simp [Params.lookup, hkey, ih]

theorem Params.noHandles_nil : Params.noHandles [] := by
  intro k v h
  simp [Params.lookup] at h

theorem Params.noHandles_set (p : Params) (k : String) (v : RCValue)
    (hp : Params.noHandles p) (hv : v.isHandle = false) :
    Params.noHandles (Params.set p k v) := by
  intro key w hw
  rw [Params.lookup_set] at hw
  by_cases hkey : key = k
  · simp [hkey] at hw
    exact hw ▸ hv
  · simp [hkey] at hw
    exact hp key w hw

theorem Params.noHandles_foldValues (vs : Values) (p : Params) (hp : Params.noHandles p) :
    Params.noHandles (vs.foldl readValuesStep p) := by
  induction vs generalizing p with
  | nil => exact hp
  | cons hd tl ih =>
    apply ih
    unfold readValuesStep
    cases hd.2.getLast? with
    | none => exact hp
    | some v => exact Params.noHandles_set _ _ _ hp rfl

theorem Params.noHandles_paramsOfValues (vs : Values) :
    Params.noHandles (paramsOfValues vs) :=
  Params.noHandles_foldValues vs [] Params.noHandles_nil

theorem Params.noHandles_foldJson (obj : List (String × RCValue)) (p : Params)
    (hobj : ∀ kv ∈ obj, (kv.2).isHandle = false) (hp : Params.noHandles p) :
    Params.noHandles (obj.foldl (fun q kv => q.set kv.1 kv.2) p) := by
  induction obj generalizing p with
  | nil => exact hp
  | cons hd tl ih =>
    simp only [List.foldl_cons]
    apply ih
    · intro kv hkv
      exact hobj kv (List.mem_cons_of_mem hd hkv)
    · exact Params.noHandles_set _ _ _ hp (hobj hd (List.mem_cons_self hd tl))

theorem buildPostInput_noHandles (r : Request) (inp : Params)
    (hjson : ∀ obj, r.jsonBody = some obj → ∀ kv ∈ obj, (kv.2).isHandle = false)
    (h : buildPostInput r = PostInput.ok inp) :
    Params.noHandles inp := by
  unfold buildPostInput at h
  split at h
  · exact PostInput.noConfusion h
  next values heq =>
    split_ifs at h with hj
    · cases hobj : r.jsonBody with
      | none => rw [hobj] at h; exact PostInput.noConfusion h
      | some obj =>
        rw [hobj] at h
        injection h with h
        subst h
        exact Params.noHandles_foldJson obj _ (hjson obj hobj)
          (Params.noHandles_paramsOfValues values)
    · injection h with h
      subst h
      exact Params.noHandles_paramsOfValues values

theorem respBodies_append (a b : List WEvent) :
    respBodies (a ++ b) = respBodies a ++ respBodies b := by
  simp [respBodies, List.filterMap_append]

theorem respHeaders_addHeader (k v : String) (tr : List WEvent) :
    respHeaders (WEvent.addHeader k v :: tr) = (k, v) :: respHeaders tr := by
  simp [respHeaders, WEvent.isCommit, List.takeWhile_cons, List.filterMap_cons]

theorem respHeaders_writeHeader (s : Nat) (tr : List WEvent) :
    respHeaders (WEvent.writeHeader s :: tr) = [] := by
  simp [respHeaders, WEvent.isCommit, List.takeWhile_cons]

theorem respHeaders_write (b : BodyOut) (tr : List WEvent) :
    respHeaders (WEvent.write b :: tr) = [] := by
  simp [respHeaders, WEvent.isCommit, List.takeWhile_cons]

theorem respStatus_writeError (path : String) (inp : Params) (err : RCError) (status : Nat) :
    respStatus (writeError path inp err status) = err.declaredStatus.getD status := by
  cases err with
  | mk msg ds =>
    cases ds <;>
      simp [writeError, rcError, respStatus, WEvent.isCommit, List.find?]

theorem respBodies_writeError (path : String) (inp : Params) (err : RCError) (status : Nat) :
    respBodies (writeError path inp err status) =
      [BodyOut.jsonEnvelope path inp err.msg (err.declaredStatus.getD status)] := by
  cases err with
  | mk msg ds =>
    cases ds <;> simp [writeError, rcError, respBodies, List.filterMap]

theorem respHeaders_writeError (path : String) (inp : Params) (err : RCError) (status : Nat) :
    respHeaders (writeError path inp err status) = [] := by
  simp [writeError, respHeaders_writeHeader]

theorem handlePost_dispatch (reg : Registry) (eng : JobEngine) (r : Request)
    (path : String) (inp : Params) (call : Call)
    (job : Option Nat) (out : Option Params) (err : Option RCError)
    (hin : buildPostInput r = PostInput.ok inp)
    (hreg : reg path = some call)
    (hpass : (call.authRequired && !(IsAuthenticated r)) = false)
    (heng : eng.newJob call (injectTransport call inp) = (job, out, err)) :
    handlePost reg eng r path =
      (match job with
       | some id => [WEvent.addHeader "x-rclone-jobid" (toString id)]
       | none => []) ++
      (match err with
       | some e => writeError path inp e 500
       | none => [WEvent.write (BodyOut.jsonParams (out.getD []))]) := by
  unfold handlePost
  rw [hin, hreg]
  simp only [hpass, Bool.false_eq_true, if_false, Params.copy]
  have h1 : (eng.newJob call (injectTransport call inp)).1 = job := by rw [heng]
  have h21 : (eng.newJob call (injectTransport call inp)).2.1 = out := by rw [heng]
  have h22 : (eng.newJob call (injectTransport call inp)).2.2 = err := by rw [heng]
  rw [h22, h1, h21]
  cases err <;> cases job <;> rfl

theorem Values.lookup_add (vs : Values) (k v : String) (key : String) :
    Values.lookup (Values.add vs k v) key =
      if key = k then some ((Values.lookup vs k).getD [] ++ [v])
      else Values.lookup vs key := by
  induction vs with
  | nil => simp [Values.add, Values.lookup]
  | cons hd tl ih =>
    obtain ⟨k0, l0⟩ := hd
    by_cases hk : k0 = k
    · subst hk
      simp only [Values.add, if_pos rfl]
      by_cases hkey : key = k0
      · subst hkey; simp [Values.lookup]
      · simp [Values.lookup, hkey]
    · simp only [Values.add, if_neg hk]
      have hkk0 : ¬ k = k0 := fun h => hk h.symm
      by_cases hkey : key = k0
      · subst hkey
        have hne : ¬ key = k := fun h => hk (h ▸ rfl)
        simp [Values.lookup, hne]
      · simp [Values.lookup, hkey, ih, hkk0]

theorem valuesOfPairs_eq_fold (pairs : List (String × String)) :
    valuesOfPairs pairs = pairs.foldl addPairStep [] := rfl

theorem lookup_foldAdd_preserves (pairs : List (String × String)) (acc : Values) (k : String)
    (h : ∃ l, Values.lookup acc k = some l ∧ l ≠ []) :
    ∃ l, Values.lookup (pairs.foldl addPairStep acc) k = some l ∧ l ≠ [] := by
  induction pairs generalizing acc with
  | nil => exact h
  | cons hd tl ih =>
    simp only [List.foldl_cons]
    apply ih
    obtain ⟨l, hl, hne⟩ := h
    unfold addPairStep
    rw [Values.lookup_add]
    by_cases hk : k = hd.1
    · rw [if_pos hk]
      exact ⟨_, rfl, by simp⟩
    · rw [if_neg hk]
      exact ⟨l, hl, hne⟩

theorem lookup_foldAdd_of_mem (pairs : List (String × String)) (acc : Values)
    (k v : String) (h : (k, v) ∈ pairs) :
    ∃ l, Values.lookup (pairs.foldl addPairStep acc) k = some l ∧ l ≠ [] := by
  induction pairs generalizing acc with
  | nil => exact absurd h (List.not_mem_nil _)
  | cons hd tl ih =>
    simp only [List.foldl_cons]
    rcases List.mem_cons.mp h with heq | hmem
    · apply lookup_foldAdd_preserves
      unfold addPairStep
      rw [Values.lookup_add]
      have hk : k = hd.1 := by rw [← heq]
      rw [if_pos hk]
      exact ⟨_, rfl, by simp⟩
    · exact ih _ hmem

theorem Params.lookup_isSome_fold (vs : Values) (acc : Params) (k : String)
    (h : (Params.lookup acc k).isSome) :
    (Params.lookup (vs.foldl readValuesStep acc) k).isSome := by
  induction vs generalizing acc with
  | nil => exact h
  | cons hd tl ih =>
    simp only [List.foldl_cons]
    apply ih
    unfold readValuesStep
    cases hd.2.getLast? with
    | none => exact h
    | some v =>
      rw [Params.lookup_set]
      by_cases hk : k = hd.1
      · simp [hk]
      · simpa [hk] using h

theorem Params.lookup_isSome_fold_of_binding (vs : Values) (acc : Params)
    (k : String) (l : List String) (hl : Values.lookup vs k = some l) (hne : l ≠ []) :
    (Params.lookup (vs.foldl readValuesStep acc) k).isSome := by
  induction vs generalizing acc with
  | nil => exact absurd hl (by simp [Values.lookup])
  | cons hd tl ih =>
    obtain ⟨k0, l0⟩ := hd
    simp only [List.foldl_cons]
    by_cases hk : k = k0
    · subst hk
      simp [Values.lookup] at hl
      subst hl
      obtain ⟨v, hgl⟩ := Option.isSome_iff_exists.mp (List.getLast?_isSome.mpr hne)
      have hstep : readValuesStep acc (k, l0) = acc.set k (RCValue.str v) := by
        unfold readValuesStep
        rw [hgl]
      rw [hstep]
      apply Params.lookup_isSome_fold
      rw [Params.lookup_set]
      simp
    · simp only [Values.lookup, if_neg hk] at hl
      exact ih _ hl

theorem paramsOfValues_keeps_key (pairs : List (String × String)) (k v : String)
    (h : (k, v) ∈ pairs) :
    (Params.lookup (paramsOfValues (valuesOfPairs pairs)) k).isSome := by
  obtain ⟨l, hl, hne⟩ := lookup_foldAdd_of_mem pairs [] k v h
  rw [valuesOfPairs_eq_fold]
  exact Params.lookup_isSome_fold_of_binding _ [] k l hl hne

theorem injectTransport_lookup_request (call : Call) (p : Params)
    (h : call.needsRequest = true) :
    Params.lookup (injectTransport call p) "_request" = some RCValue.request := by
  unfold injectTransport
  rw [h]
  simp only [if_true]
  by_cases hresp : call.needsResponse
  · rw [if_pos hresp, Params.lookup_set, Params.lookup_set]
    simp
  · rw [if_neg hresp, Params.lookup_set]
    simp

theorem injectTransport_lookup_response (call : Call) (p : Params)
    (h : call.needsResponse = true) :
    Params.lookup (injectTransport call p) "_response" = some RCValue.response := by
  unfold injectTransport
  rw [h]
  simp only [if_true]
  rw [Params.lookup_set]
  simp

/-! ### The claims -/

/-- C1 (amended): the POST input mapping starts from the URL query values;
under a form content type Go's ParseForm merges the parsed body with the
URL query (body values first), the mapping is rebuilt from that merge by
last-value selection, and every query key keeps a binding (query values
are merged, not superseded); a form parse failure yields the form error
with no partial input; under a JSON content type the decoded object's keys
merge over the query-derived mapping, and a decode failure keeps the
query-derived mapping for the error envelope. -/
theorem C1_post_input_mapping (r : Request) :
    (r.contentType ≠ "application/x-www-form-urlencoded" →
      r.contentType ≠ "application/json" →
      buildPostInput r = PostInput.ok (paramsOfValues (valuesOfPairs r.queryPairs))) ∧
    (∀ post, r.contentType = "application/x-www-form-urlencoded" →
      r.formBody = some post →
      buildPostInput r =
        PostInput.ok (paramsOfValues (valuesOfPairs (post ++ r.queryPairs))) ∧
      ∀ k v, (k, v) ∈ r.queryPairs →
        (Params.lookup (paramsOfValues (valuesOfPairs (post ++ r.queryPairs))) k).isSome) ∧
    (r.contentType = "application/x-www-form-urlencoded" → r.formBody = none →
      buildPostInput r = PostInput.formErr) ∧
    (∀ obj, r.contentType = "application/json" → r.jsonBody = some obj →
      buildPostInput r = PostInput.ok
        (obj.foldl (fun p kv => p.set kv.1 kv.2)
          (paramsOfValues (valuesOfPairs r.queryPairs)))) ∧
    (r.contentType = "application/json" → r.jsonBody = none →
      buildPostInput r = PostInput.jsonErr (paramsOfValues (valuesOfPairs r.queryPairs))) := by
  have hne : "application/x-www-form-urlencoded" ≠ "application/json" := by decide
  refine ⟨?_, ?_, ?_, ?_, ?_⟩
  · intro h1 h2
    unfold buildPostInput
    simp [h1, h2]
  · intro post h1 h2
    constructor
    · unfold buildPostInput
      rw [h1, h2]
      simp [hne]
    · intro k v hkv
      exact paramsOfValues_keeps_key (post ++ r.queryPairs) k v
        (List.mem_append_right post hkv)
  · intro h1 h2
    unfold buildPostInput
    rw [h1, h2]
    simp
  · intro obj h1 h2
    unfold buildPostInput
    rw [h1, h2]
    simp [hne.symm]
  · intro h1 h2
    unfold buildPostInput
    rw [h1, h2]
    simp [hne.symm]

/-- C1 counterexample: for a form POST with body a=b and query c=d the
input mapping the code builds still binds the query key c (to d), whereas
the claim says query values are superseded by the form values — whose
mapping would be just a=b. -/
theorem C1_counterexample :
    buildPostInput reqFormExample =
      PostInput.ok [("a", RCValue.str "b"), ("c", RCValue.str "d")] ∧
    Params.lookup [("a", RCValue.str "b"), ("c", RCValue.str "d")] "c" =
      some (RCValue.str "d") ∧
    paramsOfValues (valuesOfPairs [("a", "b")]) = [("a", RCValue.str "b")] ∧
    buildPostInput reqFormExample ≠
      PostInput.ok (paramsOfValues (valuesOfPairs [("a", "b")])) := by
  refine ⟨rfl, rfl, rfl, ?_⟩
  decide

/-- C1 witness: the JSON POST with body a=b and query c=d yields an input
mapping holding both a=b and c=d. -/
theorem C1_witness :
    buildPostInput reqJsonExample =
      PostInput.ok [("c", RCValue.str "d"), ("a", RCValue.str "b")] ∧
    Params.lookup [("c", RCValue.str "d"), ("a", RCValue.str "b")] "a" =
      some (RCValue.str "b") ∧
    Params.lookup [("c", RCValue.str "d"), ("a", RCValue.str "b")] "c" =
      some (RCValue.str "d") := by
  refine ⟨?_, rfl, rfl⟩
  have h := (C1_post_input_mapping reqJsonExample).2.2.2.1
    [("a", RCValue.str "b")] rfl rfl
  exact h.trans rfl

/-- C2: a POST to a registered command whose registration requires
authorization, from a request carrying no authenticated identity, answers
403 with an error envelope whose message names the command path and tells
the operator to set up authentication or use the --rc-no-auth flag. -/
theorem C2_auth_required_forbidden (reg : Registry) (eng : JobEngine) (r : Request)
    (path : String) (inp : Params) (call : Call)
    (hin : buildPostInput r = PostInput.ok inp)
    (hreg : reg path = some call)
    (hauth : call.authRequired = true)
    (hid : IsAuthenticated r = false) :
    handlePost reg eng r path =
      writeError path inp
        { msg := "authentication must be set up on the rc server to use " ++
            goQuote path ++ " or the --rc-no-auth flag must be in use",
          declaredStatus := none } 403 ∧
    respStatus (handlePost reg eng r path) = 403 ∧
    respBodies (handlePost reg eng r path) =
      [BodyOut.jsonEnvelope path inp
        ("authentication must be set up on the rc server to use " ++
          goQuote path ++ " or the --rc-no-auth flag must be in use") 403] := by
  have h : handlePost reg eng r path =
      writeError path inp
        { msg := "authentication must be set up on the rc server to use " ++
            goQuote path ++ " or the --rc-no-auth flag must be in use",
          declaredStatus := none } 403 := by
    unfold handlePost
    rw [hin, hreg]
    simp [hauth, hid]
  refine ⟨h, ?_, ?_⟩
  · rw [h, respStatus_writeError]
    rfl
  · rw [h, respBodies_writeError]
    rfl

/-- C3: when dispatch to the job engine returns an error, the error
envelope echoes the input mapping snapshotted before the transport handles
were injected — the engine received the injected mapping, the envelope the
pre-injection one — and no live request/response handle can appear in that
envelope (decoded JSON carries data values only). -/
theorem C3_error_envelope_snapshot (reg : Registry) (eng : JobEngine) (r : Request)
    (path : String) (inp : Params) (call : Call)
    (job : Option Nat) (out : Option Params) (e : RCError)
    (hjson : ∀ obj, r.jsonBody = some obj → ∀ kv ∈ obj, (kv.2).isHandle = false)
    (hin : buildPostInput r = PostInput.ok inp)
    (hreg : reg path = some call)
    (hpass : (call.authRequired && !(IsAuthenticated r)) = false)
    (heng : eng.newJob call (injectTransport call inp) = (job, out, some e)) :
    respBodies (handlePost reg eng r path) =
      [BodyOut.jsonEnvelope path inp e.msg (e.declaredStatus.getD 500)] ∧
    Params.noHandles inp ∧
    (call.needsRequest = true →
      Params.lookup (injectTransport call inp) "_request" = some RCValue.request) ∧
    (call.needsResponse = true →
      Params.lookup (injectTransport call inp) "_response" = some RCValue.response) := by
  have h := handlePost_dispatch reg eng r path inp call job out (some e) hin hreg hpass heng
  refine ⟨?_, buildPostInput_noHandles r inp hjson hin,
    injectTransport_lookup_request call inp, injectTransport_lookup_response call inp⟩
  rw [h, respBodies_append, respBodies_writeError]
  cases job <;> simp [respBodies]

/-- C4: when the job engine returns a job handle, the x-rclone-jobid
header carrying the handle's id is the first writer action — before any
body write — and it is among the effective response headers whether the
call then fails or succeeds (the error outcome is arbitrary here). -/
theorem C4_jobid_header (reg : Registry) (eng : JobEngine) (r : Request)
    (path : String) (inp : Params) (call : Call)
    (id : Nat) (out : Option Params) (err : Option RCError)
    (hin : buildPostInput r = PostInput.ok inp)
    (hreg : reg path = some call)
    (hpass : (call.authRequired && !(IsAuthenticated r)) = false)
    (heng : eng.newJob call (injectTransport call inp) = (some id, out, err)) :
    (∃ rest, handlePost reg eng r path =
      WEvent.addHeader "x-rclone-jobid" (toString id) :: rest) ∧
    headerValues (handlePost reg eng r path) "x-rclone-jobid" = [toString id] := by
  have h := handlePost_dispatch reg eng r path inp call (some id) out err hin hreg hpass heng
  constructor
  · exact ⟨_, h⟩
  · rw [h]
    cases err with
    | some e =>
      simp [headerValues, respHeaders_addHeader, writeError, rcError,
        respHeaders_writeHeader]
    | none =>
      simp [headerValues, respHeaders_addHeader, respHeaders_write]

theorem headerValues_eq_nil_of_clean (tr : List WEvent) (key : String)
    (h : ∀ k v, (k, v) ∈ respHeaders tr → k ≠ key) :
    headerValues tr key = [] := by
  apply List.filterMap_eq_nil_iff.mpr
  intro kv hkv
  simp [h kv.1 kv.2 hkv]

/-- C5: for unix-socket requests the CORS middleware passes the request
through untouched — given a downstream handler that sets no CORS header,
the response carries none of the three; for every other request the
middleware puts the allow-origin (the configured value when non-empty,
else the request's own public URL), the fixed allowed-methods value and
the fixed allowed-headers value at the front of the effective headers. -/
theorem C5_cors_headers (ao : String) (next : Handler) (r : Request) :
    (r.isUnixSocket = true →
      MiddlewareCORS ao next r = next r ∧
      ((∀ k v, (k, v) ∈ respHeaders (next r) → k ∉ corsHeaderKeys) →
        ∀ key ∈ corsHeaderKeys, headerValues (MiddlewareCORS ao next r) key = [])) ∧
    (r.isUnixSocket = false →
      respHeaders (MiddlewareCORS ao next r) =
        ("Access-Control-Allow-Origin", if ao ≠ "" then ao else r.publicURL) ::
          ("Access-Control-Request-Method", "POST, OPTIONS, GET, HEAD") ::
          ("Access-Control-Allow-Headers", "authorization, Content-Type") ::
          respHeaders (next r) ∧
      ((∀ k v, (k, v) ∈ respHeaders (next r) → k ∉ corsHeaderKeys) →
        headerValues (MiddlewareCORS ao next r) "Access-Control-Allow-Origin" =
          [if ao ≠ "" then ao else r.publicURL] ∧
        headerValues (MiddlewareCORS ao next r) "Access-Control-Request-Method" =
          ["POST, OPTIONS, GET, HEAD"] ∧
        headerValues (MiddlewareCORS ao next r) "Access-Control-Allow-Headers" =
          ["authorization, Content-Type"])) := by
  constructor
  · intro hu
    have heq : MiddlewareCORS ao next r = next r := by
      unfold MiddlewareCORS
      rw [hu]
      simp
    refine ⟨heq, ?_⟩
    intro hclean key hkey
    rw [heq]
    apply headerValues_eq_nil_of_clean
    intro k v hkv hk
    exact hclean k v hkv (hk ▸ hkey)
  · intro hu
    have heq : respHeaders (MiddlewareCORS ao next r) =
        ("Access-Control-Allow-Origin", if ao ≠ "" then ao else r.publicURL) ::
          ("Access-Control-Request-Method", "POST, OPTIONS, GET, HEAD") ::
          ("Access-Control-Allow-Headers", "authorization, Content-Type") ::
          respHeaders (next r) := by
      unfold MiddlewareCORS
      rw [hu]
      by_cases hao : ao = ""
      · simp only [hao, ne_eq, not_true_eq_false, if_neg, if_false]
        simp [respHeaders_addHeader]
      · simp only [ne_eq, hao, not_false_eq_true, if_pos, if_true]
        simp [respHeaders_addHeader, hao]
    refine ⟨heq, ?_⟩
    intro hclean
    have h1 : ¬ ("Access-Control-Request-Method" = "Access-Control-Allow-Origin") := by decide
    have h2 : ¬ ("Access-Control-Allow-Headers" = "Access-Control-Allow-Origin") := by decide
    have h3 : ¬ ("Access-Control-Allow-Origin" = "Access-Control-Request-Method") := by decide
    have h4 : ¬ ("Access-Control-Allow-Headers" = "Access-Control-Request-Method") := by decide
    have h5 : ¬ ("Access-Control-Allow-Origin" = "Access-Control-Allow-Headers") := by decide
    have h6 : ¬ ("Access-Control-Request-Method" = "Access-Control-Allow-Headers") := by decide
    have hc1 : headerValues (next r) "Access-Control-Allow-Origin" = [] := by
      apply headerValues_eq_nil_of_clean
      intro k v hkv hk
      exact hclean k v hkv (by rw [hk]; simp [corsHeaderKeys])
    have hc2 : headerValues (next r) "Access-Control-Request-Method" = [] := by
      apply headerValues_eq_nil_of_clean
      intro k v hkv hk
      exact hclean k v hkv (by rw [hk]; simp [corsHeaderKeys])
    have hc3 : headerValues (next r) "Access-Control-Allow-Headers" = [] := by
      apply headerValues_eq_nil_of_clean
      intro k v hkv hk
      exact hclean k v hkv (by rw [hk]; simp [corsHeaderKeys])
    unfold headerValues at hc1 hc2 hc3
    refine ⟨?_, ?_, ?_⟩ <;>
      · unfold headerValues
        rw [heq]
        simp [List.filterMap_cons, h1, h2, h3, h4, h5, h6, hc1, hc2, hc3]

theorem respStatus_requireAuth (realm : String) : respStatus (requireAuth realm) = 401 := rfl

theorem headerValues_requireAuth (realm : String) :
    headerValues (requireAuth realm) "WWW-Authenticate" =
      ["Basic realm=" ++ goQuote realm] := by
  simp [requireAuth, headerValues, respHeaders, WEvent.isCommit,
    List.takeWhile, List.filterMap]

/-- C6 (amended): under the static-credential and htpasswd strategies (the
basicAuth wrapper), every request the authenticator rejects — a missing
header or bad credentials alike — is answered 401 with the challenge
header Basic realm="configured realm"; under the custom-verifier strategy
the same challenge is issued when well-formed Basic credentials are
presented and the verifier returns an error, while a missing or malformed
Authorization header passes through without a challenge. -/
theorem C6_failed_auth_challenge :
    (∀ (a : LoggedBasicAuth) (next : Handler) (r : Request),
      a.checkAuth r = none →
      basicAuth a next r = requireAuth a.realm ∧
      respStatus (basicAuth a next r) = 401 ∧
      headerValues (basicAuth a next r) "WWW-Authenticate" =
        ["Basic realm=" ++ goQuote a.realm]) ∧
    (∀ (fn : CustomAuthFn) (realm : String) (next : Handler) (r : Request)
      (u p msg : String),
      parseAuthorization r = (u, p, true) →
      fn u p = Except.error msg →
      MiddlewareAuthCustom fn realm next r = requireAuth realm ∧
      respStatus (MiddlewareAuthCustom fn realm next r) = 401 ∧
      headerValues (MiddlewareAuthCustom fn realm next r) "WWW-Authenticate" =
        ["Basic realm=" ++ goQuote realm]) := by
  constructor
  · intro a next r h
    have heq : basicAuth a next r = requireAuth a.realm := by
      unfold basicAuth
      rw [h]
    exact ⟨heq, by rw [heq, respStatus_requireAuth],
      by rw [heq, headerValues_requireAuth]⟩
  · intro fn realm next r u p msg hparse hfn
    have heq : MiddlewareAuthCustom fn realm next r = requireAuth realm := by
      unfold MiddlewareAuthCustom
      rw [hparse]
      simp only []
      rw [hfn]
    exact ⟨heq, by rw [heq, respStatus_requireAuth],
      by rw [heq, headerValues_requireAuth]⟩

/-- C6 counterexample: under the custom-verifier strategy — one of the
claim's active strategies — a request with the Authorization header
missing is passed to the next handler (here answering 200) with no 401
and no WWW-Authenticate challenge, although the verifier rejects every
credential pair. -/
theorem C6_counterexample :
    MiddlewareAuthCustom rejectAllFn "test" okPageHandler reqNoAuthHeader =
      okPageHandler reqNoAuthHeader ∧
    respStatus (MiddlewareAuthCustom rejectAllFn "test" okPageHandler reqNoAuthHeader) = 200 ∧
    headerValues (MiddlewareAuthCustom rejectAllFn "test" okPageHandler reqNoAuthHeader)
      "WWW-Authenticate" = [] :=
  ⟨rfl, rfl, rfl⟩

/-- C6 witness: a failing basicAuth check and a failing custom verifier
both answer 401 with the realm challenge at concrete inputs. -/
theorem C6_witness :
    basicAuth testBasicAuth okPageHandler reqNoAuthHeader = requireAuth "test" ∧
    respStatus (basicAuth testBasicAuth okPageHandler reqNoAuthHeader) = 401 ∧
    headerValues (basicAuth testBasicAuth okPageHandler reqNoAuthHeader)
      "WWW-Authenticate" = ["Basic realm=" ++ goQuote "test"] ∧
    respStatus (MiddlewareAuthCustom rejectAllFn "test" okPageHandler reqBadCreds) = 401 := by
  have h := C6_failed_auth_challenge.1 testBasicAuth okPageHandler reqNoAuthHeader rfl
  refine ⟨h.1, h.2.1, h.2.2, ?_⟩
  exact (C6_failed_auth_challenge.2 rejectAllFn "test" okPageHandler reqBadCreds
    "alice" "pw" "invalid credentials" rfl rfl).2.1

/-- C7 (amended): the dispatcher routes POST to command invocation, OPTIONS
to an empty 200, GET and HEAD to the static/listing dispatch; any other
method is answered 405 — with a JSON error envelope body written by
writeError, not a plain-text body. -/
theorem C7_method_routing (reg : Registry) (eng : JobEngine)
    (getH : Request → String → List WEvent) (r : Request) :
    (r.method = "POST" →
      handler reg eng getH r = handlePost reg eng r (trimLeftSlash r.urlPath)) ∧
    (r.method = "OPTIONS" →
      handler reg eng getH r = [WEvent.writeHeader 200] ∧
      respStatus (handler reg eng getH r) = 200 ∧
      respBodies (handler reg eng getH r) = []) ∧
    (r.method = "GET" ∨ r.method = "HEAD" →
      handler reg eng getH r = getH r (trimLeftSlash r.urlPath)) ∧
    (r.method ≠ "POST" → r.method ≠ "OPTIONS" → r.method ≠ "GET" → r.method ≠ "HEAD" →
      handler reg eng getH r =
        writeError (trimLeftSlash r.urlPath) []
          { msg := "method " ++ goQuote r.method ++ " not allowed",
            declaredStatus := none } 405 ∧
      respStatus (handler reg eng getH r) = 405 ∧
      respBodies (handler reg eng getH r) =
        [BodyOut.jsonEnvelope (trimLeftSlash r.urlPath) []
          ("method " ++ goQuote r.method ++ " not allowed") 405] ∧
      (respBodies (handler reg eng getH r)).any BodyOut.isText = false) := by
  refine ⟨?_, ?_, ?_, ?_⟩
  · intro h
    unfold handler
    simp [h]
  · intro h
    have heq : handler reg eng getH r = [WEvent.writeHeader 200] := by
      unfold handler
      simp [h]
    exact ⟨heq, by rw [heq]; rfl, by rw [heq]; rfl⟩
  · intro h
    unfold handler
    rcases h with h | h <;> simp [h]
  · intro h1 h2 h3 h4
    have heq : handler reg eng getH r =
        writeError (trimLeftSlash r.urlPath) []
          { msg := "method " ++ goQuote r.method ++ " not allowed",
            declaredStatus := none } 405 := by
      unfold handler
      simp [h1, h2, h3, h4]
    refine ⟨heq, ?_, ?_, ?_⟩
    · rw [heq, respStatus_writeError]
      rfl
    · rw [heq, respBodies_writeError]
      rfl
    · rw [heq, respBodies_writeError]
      rfl

/-- C7 counterexample: a DELETE is answered 405, but its body is the JSON
error envelope written by writeError — no plain-text write appears, and
the body differs from the plain-text form http.Error would produce. -/
theorem C7_counterexample :
    handler regEmpty engIdle getNotFound reqDelete =
      [WEvent.writeHeader 405,
       WEvent.write (BodyOut.jsonEnvelope "x" [] "method \"DELETE\" not allowed" 405)] ∧
    respStatus (handler regEmpty engIdle getNotFound reqDelete) = 405 ∧
    (respBodies (handler regEmpty engIdle getNotFound reqDelete)).any BodyOut.isText = false ∧
    respBodies (handler regEmpty engIdle getNotFound reqDelete) ≠
      [BodyOut.text "Method Not Allowed\n"] :=
  ⟨rfl, rfl, rfl, by decide⟩

/-- C7 witness: OPTIONS yields the empty 200 and the non-routed method
DELETE yields 405, at concrete inputs. -/
theorem C7_witness :
    handler regEmpty engIdle getNotFound reqOptionsX = [WEvent.writeHeader 200] ∧
    respStatus (handler regEmpty engIdle getNotFound reqDelete) = 405 := by
  constructor
  · exact ((C7_method_routing regEmpty engIdle getNotFound reqOptionsX).2.1 rfl).1
  · exact ((C7_method_routing regEmpty engIdle getNotFound reqDelete).2.2.2
      (by decide) (by decide) (by decide) (by decide)).2.1

/-- C5 witness: over the unix socket no CORS header is present; over TCP
with an empty configured origin the allow origin is the request's public
URL, with a configured origin it is that origin verbatim, and the fixed
allowed-methods and allowed-headers values are present. -/
theorem C5_witness :
    MiddlewareCORS "" okPageHandler reqUnix = okPageHandler reqUnix ∧
    headerValues (MiddlewareCORS "" okPageHandler reqUnix)
      "Access-Control-Allow-Origin" = [] ∧
    headerValues (MiddlewareCORS "" okPageHandler reqTCP)
      "Access-Control-Allow-Origin" = ["http://127.0.0.1:8080/"] ∧
    headerValues (MiddlewareCORS "http://test.rclone.org" okPageHandler reqTCP)
      "Access-Control-Allow-Origin" = ["http://test.rclone.org"] ∧
    headerValues (MiddlewareCORS "" okPageHandler reqTCP)
      "Access-Control-Request-Method" = ["POST, OPTIONS, GET, HEAD"] ∧
    headerValues (MiddlewareCORS "" okPageHandler reqTCP)
      "Access-Control-Allow-Headers" = ["authorization, Content-Type"] := by
  have hcleanU : ∀ k v, (k, v) ∈ respHeaders (okPageHandler reqUnix) → k ∉ corsHeaderKeys := by
    intro k v hkv
    exact absurd hkv (List.not_mem_nil _)
  have hcleanT : ∀ k v, (k, v) ∈ respHeaders (okPageHandler reqTCP) → k ∉ corsHeaderKeys := by
    intro k v hkv
    exact absurd hkv (List.not_mem_nil _)
  have hU := (C5_cors_headers "" okPageHandler reqUnix).1 rfl
  have hT := ((C5_cors_headers "" okPageHandler reqTCP).2 rfl).2 hcleanT
  have hT2 := ((C5_cors_headers "http://test.rclone.org" okPageHandler reqTCP).2 rfl).2 hcleanT
  refine ⟨hU.1, hU.2 hcleanU _ (by simp [corsHeaderKeys]), ?_, ?_, hT.2.1, hT.2.2⟩
  · exact hT.1.trans (by rfl)
  · exact hT2.1.trans (by rfl)

/-- C8 (amended): in the functional-options builders, initTLS returns at
once when no TLS key material is configured, so a client-CA bundle
configured without key material is silently ignored rather than fatal;
only the Options-struct builder treats that combination as a fatal
configuration error.  When key material is present and a client CA is
configured, the bundle must parse into a non-empty trust pool — otherwise
construction fails — and the resulting TLS config then requires and
verifies client certificates. -/
theorem C8_client_ca :
    (∀ (env : TLSEnv) (opt : HTTPConfig),
      opt.tlsCert = "" → opt.tlsCertBody = "" → opt.tlsKey = "" → opt.tlsKeyBody = "" →
      opt.clientCA ≠ "" →
      newServerTLS env opt =
        Except.error "can't use --client-ca without --cert and --key") ∧
    (∀ (env : TLSEnv) (cfg : HTTPConfig),
      cfg.tlsKey = "" → cfg.tlsKeyBody = "" →
      initTLS env cfg = Except.ok none) ∧
    (∀ (env : TLSEnv) (cfg : HTTPConfig) (mv : Nat) (pem : String),
      cfg.tlsKey ≠ "" → cfg.tlsCert ≠ "" → cfg.tlsCertBody = "" → cfg.tlsKeyBody = "" →
      env.loadKeyPair cfg.tlsCert cfg.tlsKey = Except.ok () →
      minTLSVersionOf cfg.minTLSVersion = some mv →
      cfg.clientCA ≠ "" →
      env.readFile cfg.clientCA = Except.ok pem →
      (env.pemHasCert pem = true →
        initTLS env cfg =
          Except.ok (some { minVersion := mv, clientCAs := true, clientAuth := true })) ∧
      (env.pemHasCert pem = false →
        initTLS env cfg =
          Except.error "unable to parse client certificate authority")) := by
  refine ⟨?_, ?_, ?_⟩
  · intro env opt hc hcb hk hkb hca
    unfold newServerTLS
    simp [hc, hcb, hk, hkb, hca, UseTLS]
  · intro env cfg hk hkb
    unfold initTLS
    simp [hk, hkb]
  · intro env cfg mv pem hk hc hcb hkb hload hmv hca hread
    have heval : ∀ b : Bool, env.pemHasCert pem = b →
        initTLS env cfg =
          (if b then
            Except.ok (some { minVersion := mv, clientCAs := true, clientAuth := true })
          else Except.error "unable to parse client certificate authority") := by
      intro b hb
      unfold initTLS
      rw [if_neg (by simp [hk]), if_neg (by simp [hcb, hkb]),
        if_neg (by rw [bne_iff_ne.mpr hc, bne_iff_ne.mpr hk]; decide),
        if_neg (by simp [hcb]), hload]
      dsimp only
      rw [hmv]
      dsimp only
      rw [if_pos hca, hread]
      dsimp only
      rw [hb]
    exact ⟨fun hb => by rw [heval true hb]; rfl,
      fun hb => by rw [heval false hb]; rfl⟩

/-- C8 counterexample: with a client-CA path set and no TLS key material,
initTLS (used by the functional-options NewServer) succeeds with no TLS
config at all — the CA is silently ignored, no fatal configuration error
occurs; only the Options-struct builder's validation fails there. -/
theorem C8_counterexample :
    initTLS envNoFiles cfgClientCAOnly = Except.ok none ∧
    newServerTLS envNoFiles cfgClientCAOnly =
      Except.error "can't use --client-ca without --cert and --key" :=
  ⟨rfl, rfl⟩

/-- C8 witness: with key material present the parsed CA pool is installed
and client certificates are required and verified; the two builders'
divergent no-key-material outcomes at the concrete inputs. -/
theorem C8_witness :
    initTLS envWithKeys cfgFullTLS =
      Except.ok (some { minVersion := 771, clientCAs := true, clientAuth := true }) ∧
    initTLS envNoFiles cfgClientCAOnly = Except.ok none ∧
    newServerTLS envNoFiles cfgClientCAOnly =
      Except.error "can't use --client-ca without --cert and --key" := by
  refine ⟨?_, ?_, ?_⟩
  · exact (C8_client_ca.2.2 envWithKeys cfgFullTLS 771 "CERTDATA"
      (by decide) (by decide) rfl rfl rfl rfl (by decide) rfl).1 rfl
  · exact C8_client_ca.2.1 envNoFiles cfgClientCAOnly rfl rfl
  · exact C8_client_ca.1 envNoFiles cfgClientCAOnly rfl rfl rfl rfl (by decide)

/-- C9: in the overlay pass, a flag-tagged settable field whose composed
flag name has a file value, whose flag exists and was not explicitly set,
is assigned the file's value converted per its declared kind (string
verbatim, int through Atoi, duration through ParseDuration); a field whose
flag was explicitly set, or has no matching flag or no file key, is left
unchanged — precedence hardcoded default < file value < explicit flag —
and a nested group is walked with its own tag put in front of its members'
flag names. -/
theorem C9_config_overlay (fileVals : List (String × String))
    (flags : String → Option FlagInfo) (parseDur : String → Option Int)
    (pfx tag0 full : String) (v : FieldVal)
    (hfull : full = if pfx ≠ "" then pfx ++ tag0 else tag0) :
    (∀ value fl, lookupStr fileVals full = some value → flags full = some fl →
      fl.changed = false →
      overlayField fileVals flags parseDur pfx (OptField.leaf (some tag0) true v) =
        OptField.leaf (some tag0) true (convertAssign parseDur v value)) ∧
    (∀ s value, convertAssign parseDur (FieldVal.str s) value = FieldVal.str value) ∧
    (∀ n value m, goAtoi value = some m →
      convertAssign parseDur (FieldVal.int n) value = FieldVal.int m) ∧
    (∀ n value d, parseDur value = some d →
      convertAssign parseDur (FieldVal.dur n) value = FieldVal.dur d) ∧
    (∀ value fl, lookupStr fileVals full = some value → flags full = some fl →
      fl.changed = true →
      overlayField fileVals flags parseDur pfx (OptField.leaf (some tag0) true v) =
        OptField.leaf (some tag0) true v) ∧
    (∀ value, lookupStr fileVals full = some value → flags full = none →
      overlayField fileVals flags parseDur pfx (OptField.leaf (some tag0) true v) =
        OptField.leaf (some tag0) true v) ∧
    (lookupStr fileVals full = none →
      overlayField fileVals flags parseDur pfx (OptField.leaf (some tag0) true v) =
        OptField.leaf (some tag0) true v) ∧
    (∀ g fs, overlayField fileVals flags parseDur pfx (OptField.group g fs) =
      OptField.group g (overlayFields fileVals flags parseDur g fs)) := by
  subst hfull
  refine ⟨?_, ?_, ?_, ?_, ?_, ?_, ?_, ?_⟩
  · intro value fl h1 h2 h3
    simp only [overlayField]
    rw [h1, h2]
    dsimp only
    rw [h3]
    simp
  · intro s value
    rfl
  · intro n value m h
    simp [convertAssign, h]
  · intro n value d h
    simp [convertAssign, h]
  · intro value fl h1 h2 h3
    simp only [overlayField]
    rw [h1, h2]
    dsimp only
    rw [h3]
    simp
  · intro value h1 h2
    simp only [overlayField]
    rw [h1]
    dsimp only
    rw [h2]
  · intro h1
    simp only [overlayField]
    rw [h1]
  · intro g fs
    rfl

/-- C9 witness: the spec's example — file value network=unix for flag
rc-net: flag not explicitly set resolves to unix; flag explicitly set to
tcp stays tcp. -/
theorem C9_witness :
    overlayField rcNetFile (rcNetFlags false) (fun _ => none) ""
      (OptField.leaf (some "rc-net") true (FieldVal.str "tcp")) =
      OptField.leaf (some "rc-net") true (FieldVal.str "unix") ∧
    overlayField rcNetFile (rcNetFlags true) (fun _ => none) ""
      (OptField.leaf (some "rc-net") true (FieldVal.str "tcp")) =
      OptField.leaf (some "rc-net") true (FieldVal.str "tcp") := by
  constructor
  · have h := (C9_config_overlay rcNetFile (rcNetFlags false) (fun _ => none)
      "" "rc-net" "rc-net" (FieldVal.str "tcp") rfl).1 "unix" { changed := false }
      rfl rfl rfl
    exact h.trans rfl
  · exact (C9_config_overlay rcNetFile (rcNetFlags true) (fun _ => none)
      "" "rc-net" "rc-net" (FieldVal.str "tcp") rfl).2.2.2.2.1 "unix"
      { changed := true } rfl rfl rfl

theorem splitAtFirst_not_mem (sep : Char) (l : List Char) (h : sep ∉ l) :
    splitAtFirst sep l = (l, none) := by
  induction l with
  | nil => rfl
  | cons c cs ih =>
    have hc : ¬ c = sep := fun hh => h (hh ▸ List.mem_cons_self c cs)
    have hcs : sep ∉ cs := fun hh => h (List.mem_cons_of_mem c hh)
    simp [splitAtFirst, hc, ih hcs]

theorem splitAtFirst_first (sep : Char) (pre rest : List Char) (h : sep ∉ pre) :
    splitAtFirst sep (pre ++ sep :: rest) = (pre, some rest) := by
  induction pre with
  | nil => simp [splitAtFirst]
  | cons c cs ih =>
    have hc : ¬ c = sep := fun hh => h (hh ▸ List.mem_cons_self c cs)
    have hcs : sep ∉ cs := fun hh => h (List.mem_cons_of_mem c hh)
    simp [splitAtFirst, hc, ih hcs]

theorem goSplitN2_basic_prefixed (tok : String) :
    goSplitN2 ("Basic " ++ tok) ' ' = ["Basic", tok] := by
  have hdata : ("Basic " ++ tok).data = ['B','a','s','i','c'] ++ (' ' :: tok.data) := by
    cases tok with
    | mk d => rfl
  unfold goSplitN2
  rw [hdata, splitAtFirst_first ' ' ['B','a','s','i','c'] tok.data (by decide)]

theorem goSplitN2_no_sep (s : String) (sep : Char) (h : sep ∉ s.data) :
    goSplitN2 s sep = [s] := by
  unfold goSplitN2
  rw [splitAtFirst_not_mem sep s.data h]

/-- C10: an Authorization header of the form Basic token whose decoded
credentials hold no colon makes parseAuthorization report the whole
credentials as the user with an empty password and ok = false, and the
custom-verifier middleware then passes the request through to the next
handler unauthenticated, for every verifier — so the verifier is never
consulted and no 401 challenge is issued. -/
theorem C10_no_colon_passthrough (r : Request) (tok creds : String)
    (hhdr : r.authHeader = "Basic " ++ tok)
    (hdec : b64decodeString tok = some creds)
    (hnc : ':' ∉ creds.data) :
    parseAuthorization r = (creds, "", false) ∧
    ∀ (fn : CustomAuthFn) (realm : String) (next : Handler),
      MiddlewareAuthCustom fn realm next r = next r := by
  have hdata : ("Basic " ++ tok).data = ['B','a','s','i','c'] ++ (' ' :: tok.data) := by
    cases tok with
    | mk d => rfl
  have hBasicNe : ("Basic " ++ tok) ≠ "" := by
    intro h
    have h2 := congrArg String.data h
    rw [hdata] at h2
    simp at h2
  have hparse : parseAuthorization r = (creds, "", false) := by
    unfold parseAuthorization
    rw [hhdr, if_pos hBasicNe, goSplitN2_basic_prefixed tok]
    simp only
    simp only [if_true]
    rw [hdec]
    dsimp only
    rw [goSplitN2_no_sep creds ':' hnc]
  refine ⟨hparse, ?_⟩
  intro fn realm next
  unfold MiddlewareAuthCustom
  rw [hparse]

/-- C10 witness: the header Basic dXNlcg== (decoding to the colon-free
credentials user) parses with ok = false and passes through even a
verifier that rejects everything, untouched. -/
theorem C10_witness :
    parseAuthorization reqNoColon = ("user", "", false) ∧
    MiddlewareAuthCustom rejectAllFn "test" okPageHandler reqNoColon =
      okPageHandler reqNoColon := by
  have h := C10_no_colon_passthrough reqNoColon "dXNlcg==" "user" rfl rfl (by decide)
  exact ⟨h.1, h.2 rejectAllFn "test" okPageHandler⟩

/-- C2 witness: an unauthenticated POST to the auth-requiring secret/op
is answered 403. -/
theorem C2_witness :
    respStatus (handlePost regSecret engIdle reqNoAuthHeader "secret/op") = 403 :=
  (C2_auth_required_forbidden regSecret engIdle reqNoAuthHeader "secret/op" []
    { authRequired := true, needsRequest := false, needsResponse := false }
    rfl rfl rfl rfl).2.1

/-- C3 witness: the failing call to job/fail echoes the pre-injection
snapshot (the empty mapping) in the envelope although both transport
handles were injected into the mapping the engine received. -/
theorem C3_witness :
    respBodies (handlePost regNeeds engFail reqNoAuthHeader "job/fail") =
      [BodyOut.jsonEnvelope "job/fail" [] "boom" 500] ∧
    Params.lookup (injectTransport callNeedsBoth []) "_request" = some RCValue.request ∧
    Params.lookup (injectTransport callNeedsBoth []) "_response" = some RCValue.response := by
  have h := C3_error_envelope_snapshot regNeeds engFail reqNoAuthHeader "job/fail" []
    callNeedsBoth (some 7) none { msg := "boom", declaredStatus := none }
    (fun obj hobj => Option.noConfusion hobj) rfl rfl rfl rfl
  exact ⟨h.1, h.2.2.1 rfl, h.2.2.2 rfl⟩

/-- C4 witness: the successful asynchronous call to core/noop carries
x-rclone-jobid: 12 among its effective headers. -/
theorem C4_witness :
    headerValues (handlePost regSimple engAsync reqNoAuthHeader "core/noop")
      "x-rclone-jobid" = ["12"] :=
  (C4_jobid_header regSimple engAsync reqNoAuthHeader "core/noop" []
    { authRequired := false, needsRequest := false, needsResponse := false }
    12 (some []) none rfl rfl rfl rfl).2

end RC
